import Mathlib

/-!
Verification of the Quadwave MIDI bridge decoding core.

The definitions below are a shallow embedding of the state classes and the
sysex handler of quadwave_midi_bridge.py: `NeckState`, `TouchState` and the
method `QuadwaveBridge._handle`.  Python lists of 7-bit bytes become
`List Nat`; the in-place mutation of each engine state becomes explicit
state passing; an uncaught IndexError becomes a boolean error flag carried
next to the state the failing call leaves behind.  Definitions whose name
ends in `Spec` are instead transcribed from the natural-language
specification, for comparison against the code-derived definitions.
-/

namespace Quadwave

/-- Manufacturer sysex tag, constant MFG_ID of the source. -/
def MFG_ID : List Nat := [0x00, 0x22, 0x0A]

/-- Number of neck strings, constant NUM_STRINGS of the source. -/
def NUM_STRINGS : Nat := 4

/-- Maximum number of touch records, constant MAX_TOUCHES of the source. -/
def MAX_TOUCHES : Nat := 5

/-- Neck engine state: the previous and current per-string fret bitmasks,
fields prev and curr of class NeckState. -/
structure NeckState where
  prev : List Nat
  curr : List Nat
  deriving Repr, DecidableEq

/-- Construction-time neck state: both snapshots are four zero masks. -/
def NeckState.init : NeckState :=
  ⟨List.replicate NUM_STRINGS 0, List.replicate NUM_STRINGS 0⟩

/-- Per-string combine of three payload bytes, line 44 of the source:
(b0 << 14) | (b1 << 7) | b2. -/
def neckDecodeTriple (b0 b1 b2 : Nat) : Nat :=
  (b0 <<< 14) ||| (b1 <<< 7) ||| b2

/-- Loop body of NeckState.update.  For each start index in the given list
the three bytes payload[i], payload[i+1], payload[i+2] are combined and
appended.  Reading past the end of the payload raises IndexError in Python;
here that is the boolean `true` in the second component, and the first
component holds the masks appended before the failing read, exactly as the
Python list `self.curr` does at the moment the exception propagates. -/
def neckScan (payload : List Nat) : List Nat → List Nat × Bool
  | [] => ([], false)
  | i :: rest =>
    if i + 3 ≤ payload.length then
      let m := neckDecodeTriple (payload.getD i 0) (payload.getD (i + 1) 0)
        (payload.getD (i + 2) 0)
      let r := neckScan payload rest
      (m :: r.1, r.2)
    else ([], true)

/-- Method NeckState.update of the source.  It first replaces prev by a copy
of curr, then rebuilds curr from the payload over start indices
range(0, 12, 3) = [0, 3, 6, 9].  The boolean is `true` when the payload was
too short and an IndexError escaped; the returned state is the state the
object is left in either way. -/
def NeckState.update (s : NeckState) (payload : List Nat) : NeckState × Bool :=
  let r := neckScan payload [0, 3, 6, 9]
  (⟨s.curr, r.1⟩, r.2)

/-- Method NeckState.events of the source: for each enumerated pair of a
previous and a current mask, for each bit 0..15 set in their XOR, emit
(stringIndex, bit + 1, whether curr has the bit), in loop order. -/
def NeckState.events (s : NeckState) : List (Nat × Nat × Bool) :=
  (s.prev.zip s.curr).enum.flatMap fun e =>
    (List.range 16).filterMap fun bit =>
      if (e.2.1 ^^^ e.2.2) &&& (1 <<< bit) ≠ 0 then
        some (e.1, bit + 1, decide ((e.2.2 &&& (1 <<< bit)) ≠ 0))
      else none

/-- Decoded touch record, the dict built by TouchState.update. -/
structure TouchPoint where
  x : Nat
  y : Nat
  z : Nat
  pressed : Bool
  deriving Repr, DecidableEq

/-- Default point substituted for a slot that is absent from a snapshot,
the literal dict of TouchState.events. -/
def defaultPoint : TouchPoint := ⟨0, 0, 0, false⟩

/-- Touch engine state: previous and current snapshot, fields prev and curr
of class TouchState. -/
structure TouchState where
  prev : List TouchPoint
  curr : List TouchPoint
  deriving Repr, DecidableEq

/-- Construction-time touch state: both snapshots empty. -/
def TouchState.init : TouchState := ⟨[], []⟩

/-- Loop of TouchState.update: up to `n` records are read, each six bytes
x_lo, x_hi, y_lo, y_hi, z, pressed starting at `idx`; the loop breaks as
soon as idx + 6 exceeds the payload length.  The bounds check makes every
read in-range, so the Python code never raises here. -/
def touchScan (payload : List Nat) : Nat → Nat → List TouchPoint
  | 0, _ => []
  | n + 1, idx =>
    if idx + 6 > payload.length then []
    else
      { x := (payload.getD (idx + 1) 0 <<< 7) ||| payload.getD idx 0,
        y := (payload.getD (idx + 3) 0 <<< 7) ||| payload.getD (idx + 2) 0,
        z := payload.getD (idx + 4) 0,
        pressed := payload.getD (idx + 5) 0 ≠ 0 } :: touchScan payload n (idx + 6)

/-- Method TouchState.update of the source: prev takes the old curr, and
curr is rebuilt by scanning at most MAX_TOUCHES records from offset 1.
The advisory count byte at offset 0 is never read. -/
def TouchState.update (s : TouchState) (payload : List Nat) : TouchState :=
  ⟨s.curr, touchScan payload MAX_TOUCHES 1⟩

/-- Kind tag of a touch event, the string literals of TouchState.events. -/
inductive TouchKind where
  | pressed
  | released
  | drag
  deriving Repr, DecidableEq

/-- Method TouchState.events of the source: slots 0 .. max(len prev, len
curr) - 1 in order, out-of-range entries replaced by the default point, and
the if/elif classification chain of the source, each arm carrying the
current x, y, z. -/
def TouchState.events (s : TouchState) : List (Nat × Nat × Nat × Nat × TouchKind) :=
  (List.range (max s.prev.length s.curr.length)).filterMap fun tid =>
    let prev := s.prev.getD tid defaultPoint
    let curr := s.curr.getD tid defaultPoint
    if ¬prev.pressed ∧ curr.pressed then
      some (tid, curr.x, curr.y, curr.z, TouchKind.pressed)
    else if prev.pressed ∧ ¬curr.pressed then
      some (tid, curr.x, curr.y, curr.z, TouchKind.released)
    else if prev.pressed ∧ curr.pressed ∧ (prev.x ≠ curr.x ∨ prev.y ≠ curr.y) then
      some (tid, curr.x, curr.y, curr.z, TouchKind.drag)
    else none

/-- Incoming mido message as far as the handler inspects it: the type
string and the data bytes. -/
structure Msg where
  type : String
  data : List Nat
  deriving Repr, DecidableEq

/-- Combined engine state owned by the bridge object. -/
structure BridgeState where
  neck : NeckState
  touch : TouchState
  deriving Repr, DecidableEq

/-- State of a freshly constructed bridge: both engines at their
construction-time defaults. -/
def bridgeInit : BridgeState := ⟨NeckState.init, TouchState.init⟩

/-- Observable output of one handler call.  A neck event is printed as
"String s+1 fret f ON/OFF"; a touch event as the pressed/released/drag
lines; the configuration handler prints a color line and a firmware
version line, modelled as a single configEv notification carrying the
fields of both prints, emitted when both prints complete. -/
inductive Ev where
  | neckEv (sIdx fret : Nat) (isOn : Bool)
  | touchEv (tid x y z : Nat) (kind : TouchKind)
  | configEv (color : String) (major minor patch : Nat)
  deriving Repr, DecidableEq

/-- Color table of the configuration arm of the handler. -/
def colors : List String := ["blue", "green", "purple"]

/-- Result of one call of QuadwaveBridge._handle: the bridge state after
the call, whether the message was forwarded unmodified to the output port,
the events printed, and whether an uncaught exception escaped the
handler. -/
structure HandleRes where
  st : BridgeState
  sent : Bool
  events : List Ev
  err : Bool
  deriving Repr, DecidableEq

/-- Method QuadwaveBridge._handle of the source.  Non-sysex messages and
sysex messages whose first three data bytes differ from MFG_ID are
forwarded to the output port.  Otherwise data[3] selects the arm: 0x01
updates the neck engine and prints its events, 0x02 updates the touch
engine and prints its events, 0x03 prints a configuration notification,
and any other value falls off the end of the if/elif chain doing nothing.
Reading data[3] of a three-byte matching frame, updating the neck engine
with a short payload, and the configuration arm with a short payload or a
color index above 2 all raise an uncaught IndexError, recorded in err. -/
def handle (st : BridgeState) (msg : Msg) : HandleRes :=
  if msg.type ≠ "sysex" then ⟨st, true, [], false⟩
  else if msg.data.take 3 ≠ MFG_ID then ⟨st, true, [], false⟩
  else if msg.data.length < 4 then ⟨st, false, [], true⟩
  else
    if msg.data.getD 3 0 = 0x01 then
      if (st.neck.update (msg.data.drop 4)).2 then
        ⟨⟨(st.neck.update (msg.data.drop 4)).1, st.touch⟩, false, [], true⟩
      else
        ⟨⟨(st.neck.update (msg.data.drop 4)).1, st.touch⟩, false,
          (st.neck.update (msg.data.drop 4)).1.events.map
            (fun e => Ev.neckEv e.1 e.2.1 e.2.2), false⟩
    else if msg.data.getD 3 0 = 0x02 then
      ⟨⟨st.neck, st.touch.update (msg.data.drop 4)⟩, false,
        (st.touch.update (msg.data.drop 4)).events.map
          (fun e => Ev.touchEv e.1 e.2.1 e.2.2.1 e.2.2.2.1 e.2.2.2.2), false⟩
    else if msg.data.getD 3 0 = 0x03 then
      if (msg.data.drop 4).length < 1 then ⟨st, false, [], true⟩
      else if 3 ≤ (msg.data.drop 4).getD 0 0 then ⟨st, false, [], true⟩
      else if (msg.data.drop 4).length < 4 then ⟨st, false, [], true⟩
      else
        ⟨st, false,
          [Ev.configEv (colors.getD ((msg.data.drop 4).getD 0 0) "")
            ((msg.data.drop 4).getD 1 0) ((msg.data.drop 4).getD 2 0)
            ((msg.data.drop 4).getD 3 0)], false⟩
    else ⟨st, false, [], false⟩

/-- Encoder of the test helper encode_mask of test_quadwave_bridge.py:
the three-byte big-endian base-128 encoding of a mask. -/
def encode_mask (mask : Nat) : List Nat :=
  [(mask >>> 14) &&& 0x7F, (mask >>> 7) &&& 0x7F, mask &&& 0x7F]

/-- Transcription of the specification text for the neck diff: for each
string index in ascending order, for each bit 0..15 in ascending order at
which the previous and the current mask differ, one event
(stringIndex, fret = bit + 1, isOn = current mask has the bit). -/
def neckDiffSpec (prev curr : List Nat) : List (Nat × Nat × Bool) :=
  (List.range NUM_STRINGS).flatMap fun i =>
    (List.range 16).filterMap fun b =>
      if (prev.getD i 0).testBit b ≠ (curr.getD i 0).testBit b then
        some (i, b + 1, (curr.getD i 0).testBit b)
      else none

/-- Transcription of the specification text for the per-slot touch
classification priority: Pressed when only curr is pressed, Released when
only prev is pressed, Dragged when both are pressed and x or y changed,
otherwise nothing; every event carries the current x, y, z. -/
def classifySlot (tid : Nat) (prev curr : TouchPoint) :
    Option (Nat × Nat × Nat × Nat × TouchKind) :=
  match prev.pressed, curr.pressed with
  | false, true => some (tid, curr.x, curr.y, curr.z, TouchKind.pressed)
  | true, false => some (tid, curr.x, curr.y, curr.z, TouchKind.released)
  | true, true =>
    if prev.x ≠ curr.x ∨ prev.y ≠ curr.y then
      some (tid, curr.x, curr.y, curr.z, TouchKind.drag)
    else none
  | false, false => none

/-- Transcription of the specification text for the touch diff: slot
indices 0 .. max(len prev, len curr) - 1 in ascending order, the default
point substituted for out-of-range entries, at most one event per slot as
classified by classifySlot. -/
def touchDiffSpec (prev curr : List TouchPoint) :
    List (Nat × Nat × Nat × Nat × TouchKind) :=
  (List.range (max prev.length curr.length)).filterMap fun tid =>
    classifySlot tid (prev.getD tid defaultPoint) (curr.getD tid defaultPoint)

/-- Transcription of the specification text for one touch record
(x_lo, x_hi, y_lo, y_hi, z, pressedFlag): x = (x_hi << 7) | x_lo,
y = (y_hi << 7) | y_lo, pressure = z, pressed = pressedFlag is nonzero. -/
def mkTouchPoint (x_lo x_hi y_lo y_hi z pf : Nat) : TouchPoint :=
  { x := (x_hi <<< 7) ||| x_lo, y := (y_hi <<< 7) ||| y_lo, z := z, pressed := pf ≠ 0 }

/-- Record read from the payload at a given offset. -/
def recordAt (payload : List Nat) (off : Nat) : TouchPoint :=
  mkTouchPoint (payload.getD off 0) (payload.getD (off + 1) 0) (payload.getD (off + 2) 0)
    (payload.getD (off + 3) 0) (payload.getD (off + 4) 0) (payload.getD (off + 5) 0)

/-- Transcription of the specification text for the touch decode: one point
per complete 6-byte record, up to MAX_TOUCHES records, starting at payload
offset 1; the number of complete records after the count byte is the
integer quotient of the remaining byte count by 6. -/
def touchDecodeSpec (payload : List Nat) : List TouchPoint :=
  (List.range (min MAX_TOUCHES ((payload.length - 1) / 6))).map fun k =>
    recordAt payload (1 + 6 * k)

/-- Bound on every mask of both snapshots of a neck state. -/
def NeckState.masksBounded (s : NeckState) : Prop :=
  (∀ m ∈ s.prev, m < 2 ^ 21) ∧ ∀ m ∈ s.curr, m < 2 ^ 21

/-- Property of a message of being a recognized Neck frame: sysex, the
manufacturer tag, a readable kind byte, and kind 0x01. -/
def isNeckFrame (msg : Msg) : Prop :=
  msg.type = "sysex" ∧ msg.data.take 3 = MFG_ID ∧ 4 ≤ msg.data.length ∧
    msg.data.getD 3 0 = 1

/-- Property of a message of being a recognized Touch frame: sysex, the
manufacturer tag, a readable kind byte, and kind 0x02. -/
def isTouchFrame (msg : Msg) : Prop :=
  msg.type = "sysex" ∧ msg.data.take 3 = MFG_ID ∧ 4 ≤ msg.data.length ∧
    msg.data.getD 3 0 = 2

/-- A nonzero bitwise AND with a shifted one is exactly a set test bit. -/
lemma and_one_shiftLeft_ne (x b : Nat) : x &&& (1 <<< b) ≠ 0 ↔ x.testBit b = true := by
  rw [Nat.shiftLeft_eq, one_mul, Nat.and_two_pow]
  cases h : x.testBit b <;> simp

/-- C1: the specification demands that a Neck payload shorter than 12 bytes
fail with MalformedPayload while leaving both stored snapshots unchanged.
The code instead raises an uncaught IndexError after having already
overwritten prev with the old curr and curr with a truncated mask list:
evaluated here at a state holding mask 16384 on string 0 and a 5-byte
payload, the call errors and both snapshots change. -/
theorem c1_short_neck_payload_corrupts_state :
    (((NeckState.init.update [1, 0, 0, 0, 0, 0, 0, 0, 0, 0, 0, 0]).1.update
        [0, 0, 0, 0, 0]).2 = true) ∧
    ((NeckState.init.update [1, 0, 0, 0, 0, 0, 0, 0, 0, 0, 0, 0]).1.update
        [0, 0, 0, 0, 0]).1.prev
      ≠ (NeckState.init.update [1, 0, 0, 0, 0, 0, 0, 0, 0, 0, 0, 0]).1.prev ∧
    ((NeckState.init.update [1, 0, 0, 0, 0, 0, 0, 0, 0, 0, 0, 0]).1.update
        [0, 0, 0, 0, 0]).1.curr
      ≠ (NeckState.init.update [1, 0, 0, 0, 0, 0, 0, 0, 0, 0, 0, 0]).1.curr := by
  decide

/-- C2 counterexample: a recognized vendor frame with the unrecognized kind
byte 0x04 is not forwarded to the output port (sent = false); the handler
returns with no effect at all, contradicting the claim that such a frame is
forwarded unmodified to the pass-through sink. -/
theorem c2_counterexample :
    handle bridgeInit ⟨"sysex", [0x00, 0x22, 0x0A, 0x04, 0]⟩ =
      ⟨bridgeInit, false, [], false⟩ := by
  decide

/-- C2 (amended): a recognized vendor frame whose kind byte is none of
0x01, 0x02, 0x03 is ignored: not forwarded to the pass-through sink, no
error, no events, and no state change. -/
theorem c2_unrecognized_kind_ignored (st : BridgeState) (msg : Msg)
    (h1 : msg.type = "sysex") (h2 : msg.data.take 3 = MFG_ID)
    (h3 : 4 ≤ msg.data.length) (h4 : msg.data.getD 3 0 ≠ 1)
    (h5 : msg.data.getD 3 0 ≠ 2) (h6 : msg.data.getD 3 0 ≠ 3) :
    handle st msg = ⟨st, false, [], false⟩ := by
  unfold handle
  rw [if_neg (by simp [h1]), if_neg (by simp [h2]), if_neg (by omega),
    if_neg h4, if_neg h5, if_neg h6]

/-- Witness for c2_unrecognized_kind_ignored at a concrete frame of kind 9. -/
theorem c2_witness :
    handle bridgeInit ⟨"sysex", [0x00, 0x22, 0x0A, 9, 7]⟩ =
      ⟨bridgeInit, false, [], false⟩ :=
  c2_unrecognized_kind_ignored bridgeInit ⟨"sysex", [0x00, 0x22, 0x0A, 9, 7]⟩ rfl
    (by decide) (by decide) (by decide) (by decide) (by decide)

/-- C3 counterexample: a sysex frame whose data is exactly the 3-byte
manufacturer tag is not passed through; reading the kind byte raises an
uncaught IndexError, contradicting the claim that every frame shorter than
4 bytes is conservatively passed through without error. -/
theorem c3_counterexample :
    (handle bridgeInit ⟨"sysex", [0x00, 0x22, 0x0A]⟩).err = true ∧
    (handle bridgeInit ⟨"sysex", [0x00, 0x22, 0x0A]⟩).sent = false := by
  decide

/-- C3 (amended): a sysex frame with fewer than 4 data bytes is passed
through untouched with no error, unless its data is exactly the 3-byte
manufacturer tag, in which case reading the kind byte raises an uncaught
IndexError; the engine state is unchanged either way. -/
theorem c3_short_frame_behavior (st : BridgeState) (d : List Nat) (h : d.length < 4) :
    handle st ⟨"sysex", d⟩ =
      if d.take 3 = MFG_ID then ⟨st, false, [], true⟩ else ⟨st, true, [], false⟩ := by
  by_cases ht : d.take 3 = MFG_ID
  · rw [if_pos ht]
    unfold handle
    rw [if_neg (by simp), if_neg (by simp [ht]), if_pos h]
  · rw [if_neg ht]
    unfold handle
    rw [if_neg (by simp), if_pos (by simp [ht])]

/-- Witness for c3_short_frame_behavior at a concrete 2-byte frame. -/
theorem c3_witness :
    handle bridgeInit ⟨"sysex", [5, 6]⟩ =
      if [5, 6].take 3 = MFG_ID then ⟨bridgeInit, false, [], true⟩
      else ⟨bridgeInit, true, [], false⟩ :=
  c3_short_frame_behavior bridgeInit [5, 6] (by decide)

/-- C4: decoding the 3-byte big-endian base-128 encoding of any 16-bit
mask through the per-string combine recovers the mask. -/
theorem c4_neck_roundtrip (M : Nat) (hM : M < 2 ^ 16) :
    neckDecodeTriple ((encode_mask M).getD 0 0) ((encode_mask M).getD 1 0)
      ((encode_mask M).getD 2 0) = M := by
  have h0 : (encode_mask M).getD 0 0 = (M >>> 14) &&& 0x7F := rfl
  have h1 : (encode_mask M).getD 1 0 = (M >>> 7) &&& 0x7F := rfl
  have h2 : (encode_mask M).getD 2 0 = M &&& 0x7F := rfl
  rw [h0, h1, h2]
  have h127 : (0x7F : Nat) = 2 ^ 7 - 1 := by norm_num
  rw [h127, neckDecodeTriple]
  apply Nat.eq_of_testBit_eq
  intro i
  simp only [Nat.and_pow_two_sub_one_eq_mod, Nat.testBit_or, Nat.testBit_shiftLeft,
    Nat.testBit_mod_two_pow, Nat.testBit_shiftRight]
  rcases Nat.lt_or_ge i 7 with h | h
  · have e1 : ¬14 ≤ i := by omega
    have e2 : ¬7 ≤ i := by omega
    simp [e1, e2, h]
  rcases Nat.lt_or_ge i 14 with h' | h'
  · have e1 : ¬14 ≤ i := by omega
    have e2 : i - 7 < 7 := by omega
    have e3 : ¬i < 7 := by omega
    have e4 : 7 + (i - 7) = i := by omega
    simp [e1, e2, e3, e4, h]
  rcases Nat.lt_or_ge i 21 with h'' | h''
  · have e1 : i - 14 < 7 := by omega
    have e2 : ¬(i - 7 < 7) := by omega
    have e3 : ¬i < 7 := by omega
    have e4 : 14 + (i - 14) = i := by omega
    simp [e1, e2, e3, e4, h', h]
  · have e1 : ¬(i - 14 < 7) := by omega
    have e2 : ¬(i - 7 < 7) := by omega
    have e3 : ¬i < 7 := by omega
    have hMi : M < 2 ^ i :=
      lt_of_lt_of_le hM (Nat.pow_le_pow_right (by norm_num) (by omega))
    simp [e1, e2, e3, Nat.testBit_lt_two_pow hMi]

/-- A list of length four is literally a four-element list. -/
lemma list_length_eq_four {α : Type} (l : List α) (h : l.length = 4) :
    ∃ a b c d, l = [a, b, c, d] := by
  rcases l with _ | ⟨a, _ | ⟨b, _ | ⟨c, _ | ⟨d, _ | ⟨e, t⟩⟩⟩⟩⟩
  · simp at h
  · simp at h
  · simp at h
  · simp at h
  · exact ⟨a, b, c, d, rfl⟩
  · simp at h

/-- One arm of the neck diff: the bit test written with masking, as in the
code, agrees with the bit test written with testBit, as in the
specification. -/
lemma neck_arm_eq (i p c b : Nat) :
    (if (p ^^^ c) &&& (1 <<< b) ≠ 0 then
        some (i, b + 1, decide (c &&& (1 <<< b) ≠ 0))
      else none)
      = (if p.testBit b ≠ c.testBit b then some (i, b + 1, c.testBit b) else none) := by
  simp only [and_one_shiftLeft_ne, Nat.testBit_xor]
  cases hp : p.testBit b <;> cases hc : c.testBit b <;> simp

/-- Witness for c4_neck_roundtrip at the mask 12345. -/
theorem c4_witness :
    12345 < 2 ^ 16 ∧
      neckDecodeTriple ((encode_mask 12345).getD 0 0) ((encode_mask 12345).getD 1 0)
        ((encode_mask 12345).getD 2 0) = 12345 :=
  ⟨by norm_num, c4_neck_roundtrip 12345 (by norm_num)⟩

/-- C5: for four-string snapshots the neck diff equals the specification
transcription (one event per differing bit, strings ascending then bits
ascending, carrying the current bit value), an equal pair diffs to the
empty list, and every emitted fret number lies in 1..16. -/
theorem c5_neck_diff (prev curr : List Nat) (hp : prev.length = 4) (hc : curr.length = 4) :
    NeckState.events ⟨prev, curr⟩ = neckDiffSpec prev curr ∧
    (prev = curr → NeckState.events ⟨prev, curr⟩ = []) ∧
    ∀ e ∈ NeckState.events ⟨prev, curr⟩, 1 ≤ e.2.1 ∧ e.2.1 ≤ 16 := by
  obtain ⟨p0, p1, p2, p3, rfl⟩ := list_length_eq_four prev hp
  obtain ⟨c0, c1, c2, c3, rfl⟩ := list_length_eq_four curr hc
  have step1 : NeckState.events ⟨[p0, p1, p2, p3], [c0, c1, c2, c3]⟩ =
      ((List.range 16).filterMap fun b =>
        if (p0 ^^^ c0) &&& (1 <<< b) ≠ 0 then
          some (0, b + 1, decide (c0 &&& (1 <<< b) ≠ 0)) else none) ++
      (((List.range 16).filterMap fun b =>
        if (p1 ^^^ c1) &&& (1 <<< b) ≠ 0 then
          some (1, b + 1, decide (c1 &&& (1 <<< b) ≠ 0)) else none) ++
      (((List.range 16).filterMap fun b =>
        if (p2 ^^^ c2) &&& (1 <<< b) ≠ 0 then
          some (2, b + 1, decide (c2 &&& (1 <<< b) ≠ 0)) else none) ++
      (((List.range 16).filterMap fun b =>
        if (p3 ^^^ c3) &&& (1 <<< b) ≠ 0 then
          some (3, b + 1, decide (c3 &&& (1 <<< b) ≠ 0)) else none) ++ []))) := rfl
  have step2 : neckDiffSpec [p0, p1, p2, p3] [c0, c1, c2, c3] =
      ((List.range 16).filterMap fun b =>
        if p0.testBit b ≠ c0.testBit b then some (0, b + 1, c0.testBit b) else none) ++
      (((List.range 16).filterMap fun b =>
        if p1.testBit b ≠ c1.testBit b then some (1, b + 1, c1.testBit b) else none) ++
      (((List.range 16).filterMap fun b =>
        if p2.testBit b ≠ c2.testBit b then some (2, b + 1, c2.testBit b) else none) ++
      (((List.range 16).filterMap fun b =>
        if p3.testBit b ≠ c3.testBit b then some (3, b + 1, c3.testBit b) else none) ++
        []))) := rfl
  have hmain : NeckState.events ⟨[p0, p1, p2, p3], [c0, c1, c2, c3]⟩ =
      neckDiffSpec [p0, p1, p2, p3] [c0, c1, c2, c3] := by
    rw [step1, step2]
    congr 1
    · exact List.filterMap_congr fun b _ => neck_arm_eq 0 p0 c0 b
    congr 1
    · exact List.filterMap_congr fun b _ => neck_arm_eq 1 p1 c1 b
    congr 1
    · exact List.filterMap_congr fun b _ => neck_arm_eq 2 p2 c2 b
    congr 1
    · exact List.filterMap_congr fun b _ => neck_arm_eq 3 p3 c3 b
  refine ⟨hmain, ?_, ?_⟩
  · intro h
    simp only [List.cons.injEq, and_true] at h
    obtain ⟨h0, h1, h2, h3⟩ := h
    subst h0; subst h1; subst h2; subst h3
    rw [hmain]
    simp [neckDiffSpec]
  · intro e he
    rw [hmain] at he
    simp only [neckDiffSpec, List.mem_flatMap, List.mem_filterMap, List.mem_range] at he
    obtain ⟨i, hi, b, hb, hsome⟩ := he
    split at hsome
    · cases hsome
      exact ⟨Nat.le_add_left 1 b, show b + 1 ≤ 16 by omega⟩
    · cases hsome

/-- Witness for c5_neck_diff at the snapshot pair ([1,0,0,0], [3,0,0,0]). -/
theorem c5_witness :
    NeckState.events ⟨[1, 0, 0, 0], [3, 0, 0, 0]⟩ = neckDiffSpec [1, 0, 0, 0] [3, 0, 0, 0] :=
  (c5_neck_diff [1, 0, 0, 0] [3, 0, 0, 0] rfl rfl).1

/-- A classified slot event carries the slot index it was classified
for. -/
lemma classifySlot_fst (tid : Nat) (p c : TouchPoint) (v : Nat × Nat × Nat × Nat × TouchKind)
    (h : classifySlot tid p c = some v) : v.1 = tid := by
  cases hp : p.pressed <;> cases hc : c.pressed <;> simp only [classifySlot, hp, hc] at h
  · exact absurd h (by simp)
  · rw [← Option.some.inj h]
  · rw [← Option.some.inj h]
  · split at h
    · rw [← Option.some.inj h]
    · exact absurd h (by simp)

/-- C6: the touch diff equals the specification transcription (slots
0 .. max length - 1 ascending, default point for out-of-range entries, at
most one event per slot by the Pressed / Released / Dragged priority,
always carrying the current x, y, z), and the emitted slot indices are
strictly increasing. -/
theorem c6_touch_diff (prev curr : List TouchPoint) :
    TouchState.events ⟨prev, curr⟩ = touchDiffSpec prev curr ∧
    List.Pairwise (fun a b => a.1 < b.1) (TouchState.events ⟨prev, curr⟩) := by
  have h1 : TouchState.events ⟨prev, curr⟩ = touchDiffSpec prev curr := by
    unfold TouchState.events touchDiffSpec
    apply List.filterMap_congr
    intro tid _
    dsimp only
    simp only [List.getD_eq_getElem?_getD]
    cases hp : (prev[tid]?.getD defaultPoint).pressed <;>
      cases hc : (curr[tid]?.getD defaultPoint).pressed <;>
        simp [classifySlot, hp, hc]
  refine ⟨h1, ?_⟩
  rw [h1]
  unfold touchDiffSpec
  refine List.pairwise_filterMap.mpr ((List.pairwise_lt_range _).imp ?_)
  intro a b hab v hv v' hv'
  rw [Option.mem_def] at hv hv'
  rw [classifySlot_fst _ _ _ _ hv, classifySlot_fst _ _ _ _ hv']
  exact hab

/-- Characterization of the touch record scan: with fuel n starting at
offset idx it reads min n ((length - idx) / 6) consecutive records. -/
lemma touchScan_eq (payload : List Nat) : ∀ (n idx : Nat),
    touchScan payload n idx =
      (List.range (min n ((payload.length - idx) / 6))).map fun k =>
        recordAt payload (idx + 6 * k) := by
  intro n
  induction n with
  | zero => intro idx; simp [touchScan]
  | succ n ih =>
    intro idx
    simp only [touchScan]
    by_cases h : idx + 6 > payload.length
    · rw [if_pos h]
      have h0 : (payload.length - idx) / 6 = 0 := Nat.div_eq_of_lt (by omega)
      rw [h0]
      simp
    · rw [if_neg h]
      rw [ih (idx + 6)]
      have hdiv : (payload.length - idx) / 6 = (payload.length - (idx + 6)) / 6 + 1 := by
        have e : payload.length - idx = (payload.length - (idx + 6)) + 6 := by omega
        rw [e, Nat.add_div_right _ (by norm_num)]
      rw [hdiv]
      have hmin : min (n + 1) ((payload.length - (idx + 6)) / 6 + 1)
          = min n ((payload.length - (idx + 6)) / 6) + 1 := by omega
      rw [hmin, List.range_succ_eq_map, List.map_cons, List.map_map]
      refine List.cons_eq_cons.mpr ⟨?_, ?_⟩
      · simp [recordAt, mkTouchPoint]
      · apply List.map_congr_left
        intro k _
        show recordAt payload (idx + 6 + 6 * k) = recordAt payload (idx + 6 * (k + 1))
        congr 1
        omega

/-- Reading a positive index of a cons list reads the tail. -/
lemma getD_cons_pos (x : Nat) (l : List Nat) (i : Nat) (h : 0 < i) :
    (x :: l).getD i 0 = l.getD (i - 1) 0 := by
  cases i with
  | zero => omega
  | succ m => simp

/-- C7: the touch decode ignores the advisory count byte and reads one
point per complete 6-byte record from offset 1, up to MAX_TOUCHES records;
consequently two payloads differing only in their first byte decode to
identical snapshots. -/
theorem c7_touch_decode (s : TouchState) (payload : List Nat) :
    (s.update payload).curr = touchDecodeSpec payload ∧
    ∀ (c c' : Nat) (rest : List Nat),
      TouchState.update s (c :: rest) = TouchState.update s (c' :: rest) := by
  constructor
  · exact touchScan_eq payload MAX_TOUCHES 1
  · intro c c' rest
    have hcurr : touchScan (c :: rest) MAX_TOUCHES 1 = touchScan (c' :: rest) MAX_TOUCHES 1 := by
      rw [touchScan_eq (c :: rest), touchScan_eq (c' :: rest)]
      simp only [List.length_cons, Nat.add_sub_cancel]
      apply List.map_congr_left
      intro k _
      unfold recordAt
      rw [getD_cons_pos c rest (1 + 6 * k) (by omega),
      getD_cons_pos c rest (1 + 6 * k + 1) (by omega),
      getD_cons_pos c rest (1 + 6 * k + 2) (by omega),
      getD_cons_pos c rest (1 + 6 * k + 3) (by omega),
      getD_cons_pos c rest (1 + 6 * k + 4) (by omega),
      getD_cons_pos c rest (1 + 6 * k + 5) (by omega),
      getD_cons_pos c' rest (1 + 6 * k) (by omega),
      getD_cons_pos c' rest (1 + 6 * k + 1) (by omega),
      getD_cons_pos c' rest (1 + 6 * k + 2) (by omega),
      getD_cons_pos c' rest (1 + 6 * k + 3) (by omega),
      getD_cons_pos c' rest (1 + 6 * k + 4) (by omega),
      getD_cons_pos c' rest (1 + 6 * k + 5) (by omega)]
    show TouchState.mk s.curr (touchScan (c :: rest) MAX_TOUCHES 1)
        = TouchState.mk s.curr (touchScan (c' :: rest) MAX_TOUCHES 1)
    rw [hcurr]

/-- C8 counterexample: the 12-byte payload starting with byte 4 is accepted
by the neck decode (no error) yet produces the mask 4 << 14 = 65536, whose
bit 16 is set, contradicting the claimed 16-bit bound on stored masks. -/
theorem c8_counterexample :
    (NeckState.init.update [4, 0, 0, 0, 0, 0, 0, 0, 0, 0, 0, 0]).2 = false ∧
    Nat.testBit ((NeckState.init.update
        [4, 0, 0, 0, 0, 0, 0, 0, 0, 0, 0, 0]).1.curr.getD 0 0) 16 = true := by
  decide

/-- Bound of a single decoded mask: with 7-bit input bytes the combine
stays below 2 to the 21. -/
lemma neckDecodeTriple_lt (b0 b1 b2 : Nat) (h0 : b0 ≤ 127) (h1 : b1 ≤ 127)
    (h2 : b2 ≤ 127) : neckDecodeTriple b0 b1 b2 < 2 ^ 21 := by
  unfold neckDecodeTriple
  have p21 : (2 : Nat) ^ 21 = 2097152 := by norm_num
  apply Nat.or_lt_two_pow
  · apply Nat.or_lt_two_pow
    · rw [Nat.shiftLeft_eq, p21]
      have p14 : (2 : Nat) ^ 14 = 16384 := by norm_num
      rw [p14]; omega
    · rw [Nat.shiftLeft_eq, p21]
      have p7 : (2 : Nat) ^ 7 = 128 := by norm_num
      rw [p7]; omega
  · rw [p21]; omega

/-- Reading any index of an all-7-bit payload with default 0 stays 7-bit. -/
lemma getD_le_127 (payload : List Nat) (h : ∀ b ∈ payload, b ≤ 127) (j : Nat) :
    payload.getD j 0 ≤ 127 := by
  by_cases hj : j < payload.length
  · rw [List.getD_eq_getElem?_getD, List.getElem?_eq_getElem hj]
    exact h _ (List.getElem_mem hj)
  · rw [List.getD_eq_getElem?_getD, List.getElem?_eq_none (by omega)]
    norm_num

/-- Every mask produced by the neck scan of an all-7-bit payload is below
2 to the 21, also when the scan aborts with an error. -/
lemma neckScan_bounded (payload : List Nat) (h : ∀ b ∈ payload, b ≤ 127) :
    ∀ idxs, ∀ m ∈ (neckScan payload idxs).1, m < 2 ^ 21 := by
  intro idxs
  induction idxs with
  | nil => simp [neckScan]
  | cons i rest ih =>
    simp only [neckScan]
    by_cases hc : i + 3 ≤ payload.length
    · rw [if_pos hc]
      intro m hm
      rcases List.mem_cons.mp hm with he | ht
      · rw [he]
        exact neckDecodeTriple_lt _ _ _ (getD_le_127 payload h i)
          (getD_le_127 payload h (i + 1)) (getD_le_127 payload h (i + 2))
      · exact ih m ht
    · rw [if_neg hc]
      intro m hm
      exact absurd hm (List.not_mem_nil m)

/-- Fold of successive neck updates over all-7-bit payloads preserves the
mask bound of both snapshots. -/
lemma foldl_update_bounded : ∀ (payloads : List (List Nat)) (s : NeckState),
    (∀ p ∈ payloads, ∀ b ∈ p, b ≤ 127) → s.masksBounded →
    (payloads.foldl (fun s p => (s.update p).1) s).masksBounded := by
  intro payloads
  induction payloads with
  | nil => intro s _ hs; exact hs
  | cons p rest ih =>
    intro s hp hs
    simp only [List.foldl_cons]
    apply ih
    · intro q hq
      exact hp q (List.mem_cons_of_mem _ hq)
    · exact ⟨hs.2, neckScan_bounded p (hp p (List.mem_cons_self _ _)) [0, 3, 6, 9]⟩

/-- C8 (amended): across every sequence of neck decode calls with 7-bit
payload bytes, starting from the initial state, every stored mask of both
snapshots stays below 2 to the 21 (bits 21 to 31 are never set); bits
16 to 20 can be set, as c8_counterexample shows. -/
theorem c8_masks_bounded (payloads : List (List Nat))
    (h : ∀ p ∈ payloads, ∀ b ∈ p, b ≤ 127) :
    (payloads.foldl (fun s p => (s.update p).1) NeckState.init).masksBounded := by
  apply foldl_update_bounded payloads NeckState.init h
  constructor <;>
    · intro m hm
      rw [List.eq_of_mem_replicate hm]
      norm_num

/-- Witness for c8_masks_bounded on a one-payload sequence of maximal
bytes. -/
theorem c8_witness :
    (([[127, 127, 127, 0, 0, 0, 0, 0, 0, 0, 0, 0]] : List (List Nat)).foldl
      (fun s p => (s.update p).1) NeckState.init).masksBounded :=
  c8_masks_bounded [[127, 127, 127, 0, 0, 0, 0, 0, 0, 0, 0, 0]] (by decide)

/-- C9: handling any frame that is not a recognized Neck message leaves the
neck snapshots untouched, and handling any frame that is not a recognized
Touch message leaves the touch snapshots untouched; in particular
pass-through, ConfigChange and unrecognized-kind frames change neither
engine. -/
theorem c9_engine_isolation (st : BridgeState) (msg : Msg) :
    (¬isNeckFrame msg → (handle st msg).st.neck = st.neck) ∧
    (¬isTouchFrame msg → (handle st msg).st.touch = st.touch) := by
  unfold handle
  split_ifs <;>
    refine ⟨fun hns => ?_, fun hts => ?_⟩ <;>
      (try rfl) <;>
      simp_all [isNeckFrame, isTouchFrame]

/-- Witness for c9_engine_isolation on a concrete ConfigChange frame. -/
theorem c9_witness :
    (handle bridgeInit ⟨"sysex", [0x00, 0x22, 0x0A, 3, 0, 1, 2, 3]⟩).st.neck
        = bridgeInit.neck ∧
    (handle bridgeInit ⟨"sysex", [0x00, 0x22, 0x0A, 3, 0, 1, 2, 3]⟩).st.touch
        = bridgeInit.touch := by
  have hn : ¬isNeckFrame ⟨"sysex", [0x00, 0x22, 0x0A, 3, 0, 1, 2, 3]⟩ := by
    intro h
    exact absurd h.2.2.2 (by decide)
  have ht : ¬isTouchFrame ⟨"sysex", [0x00, 0x22, 0x0A, 3, 0, 1, 2, 3]⟩ := by
    intro h
    exact absurd h.2.2.2 (by decide)
  exact ⟨(c9_engine_isolation bridgeInit ⟨"sysex", [0x00, 0x22, 0x0A, 3, 0, 1, 2, 3]⟩).1 hn,
    (c9_engine_isolation bridgeInit ⟨"sysex", [0x00, 0x22, 0x0A, 3, 0, 1, 2, 3]⟩).2 ht⟩

/-- C10: a ConfigChange frame completes without error exactly when its
payload has at least 4 bytes and its first byte is at most 2, in which case
exactly one informational event is produced; otherwise an uncaught
IndexError escapes and no complete notification is produced. -/
theorem c10_config_behavior (st : BridgeState) (payload : List Nat) :
    ((handle st ⟨"sysex", MFG_ID ++ 3 :: payload⟩).err
        = decide (payload.length < 4 ∨ 3 ≤ payload.getD 0 0)) ∧
    (handle st ⟨"sysex", MFG_ID ++ 3 :: payload⟩).events.length
        = if payload.length < 4 ∨ 3 ≤ payload.getD 0 0 then 0 else 1 := by
  have hres : handle st ⟨"sysex", MFG_ID ++ 3 :: payload⟩ =
      if payload.length < 1 then ⟨st, false, [], true⟩
      else if 3 ≤ payload.getD 0 0 then ⟨st, false, [], true⟩
      else if payload.length < 4 then ⟨st, false, [], true⟩
      else
        ⟨st, false,
          [Ev.configEv (colors.getD (payload.getD 0 0) "") (payload.getD 1 0)
            (payload.getD 2 0) (payload.getD 3 0)], false⟩ := by
    unfold handle
    rw [if_neg (by simp), if_neg (by simp [MFG_ID]), if_neg (by simp [MFG_ID]),
      if_neg (by simp [MFG_ID]), if_neg (by simp [MFG_ID]), if_pos (by simp [MFG_ID])]
    simp [MFG_ID]
  rw [hres]
  by_cases hlen1 : payload.length < 1
  · have h4 : payload.length < 4 ∨ 3 ≤ payload.getD 0 0 := by left; omega
    rw [if_pos hlen1]
    exact ⟨(decide_eq_true h4).symm, by rw [if_pos h4]; rfl⟩
  · rw [if_neg hlen1]
    by_cases hge : 3 ≤ payload.getD 0 0
    · have h4 : payload.length < 4 ∨ 3 ≤ payload.getD 0 0 := Or.inr hge
      rw [if_pos hge]
      exact ⟨(decide_eq_true h4).symm, by rw [if_pos h4]; rfl⟩
    · rw [if_neg hge]
      by_cases hlen4 : payload.length < 4
      · have h4 : payload.length < 4 ∨ 3 ≤ payload.getD 0 0 := Or.inl hlen4
        rw [if_pos hlen4]
        exact ⟨(decide_eq_true h4).symm, by rw [if_pos h4]; rfl⟩
      · rw [if_neg hlen4]
        have h4 : ¬(payload.length < 4 ∨ 3 ≤ payload.getD 0 0) := fun h => h.elim hlen4 hge
        exact ⟨(decide_eq_false h4).symm, by rw [if_neg h4]; rfl⟩

end Quadwave
